import Mathlib

set_option maxRecDepth 2000

/-!
Verification development for the libflux structured error-propagation and
deterministic-cleanup runtime (src/libflux.h).

The C code is shallowly embedded: the per-thread state (scope stack, guard
pool, cursor) becomes an explicit state record, the guard pool becomes a
list of guard nodes addressed by index (pool pointers become indices),
C strings become lists of byte values (without the terminating null), and
the nonlocal transfer of `longjmp` becomes a structured outcome type for a
small language of scope blocks.  Machine integers are modelled by `Int`
and `Nat`; none of the modelled quantities can overflow their C types
(indices are bounded by 2048, depths by 64).
-/

/-- In-place update of one list element, mirroring a C array store
`a[i] = f(a[i])`.  Out-of-range stores leave the list unchanged (the
operations below guard every store by the same bounds checks the C array
has, so this branch is never reached from a well-formed state). -/
def listModify (f : α → α) : Nat → List α → List α
  | _, [] => []
  | 0, a :: l => f a :: l
  | n+1, a :: l => a :: listModify f n l

theorem length_listModify (f : α → α) : ∀ (n : Nat) (l : List α),
    (listModify f n l).length = l.length := by
  intro n l
  induction l generalizing n with
  | nil => cases n <;> rfl
  | cons a l ih => cases n with
    | zero => rfl
    | succ m => simpa [listModify] using ih m

theorem get?_listModify_eq (f : α → α) : ∀ (n : Nat) (l : List α),
    (listModify f n l).get? n = (l.get? n).map f := by
  intro n l
  induction l generalizing n with
  | nil => cases n <;> rfl
  | cons a l ih => cases n with
    | zero => rfl
    | succ m => simpa [listModify] using ih m

theorem get?_listModify_ne (f : α → α) : ∀ (m n : Nat) (l : List α), m ≠ n →
    (listModify f n l).get? m = l.get? m := by
  intro m n l
  induction l generalizing m n with
  | nil => intro _; cases n <;> rfl
  | cons a l ih =>
    intro hmn
    cases n with
    | zero =>
      cases m with
      | zero => exact absurd rfl hmn
      | succ m2 => rfl
    | succ n2 =>
      cases m with
      | zero => rfl
      | succ m2 =>
        simpa [listModify] using ih m2 n2 (fun h => hmn (by rw [h]))

/-- Reading the C string stored in a fixed-size byte buffer: everything up
to the first null byte. -/
def cstr (l : List Nat) : List Nat := l.takeWhile (fun b => b != 0)

theorem cstr_append_of_ne (xs ys : List Nat) (h : ∀ x ∈ xs, x ≠ 0) :
    cstr (xs ++ ys) = xs ++ cstr ys := by
  induction xs with
  | nil => rfl
  | cons a l ih =>
    have ha : (a != 0) = true := by
      simpa using h a (by simp)
    have hl : ∀ x ∈ l, x ≠ 0 := fun x hx => h x (by simp [hx])
    simp only [cstr, List.cons_append, List.takeWhile, ha]
    simpa [cstr] using ih hl

theorem cstr_zero_cons (ys : List Nat) : cstr (0 :: ys) = [] := by
  simp [cstr, List.takeWhile]

/-! ### Constants of libflux (src/libflux.h lines 21-23) -/

def FLUX_MAX_DEPTH : Nat := 64
def FLUX_POOL_SIZE : Nat := 2048
def FLUX_ERROR_MSG_MAX : Nat := 512

/-! ### Data model -/

/-- `struct flux_error` (src/libflux.h lines 30-35).  `msg` and `file` are
the full fixed-size byte buffers (lengths 512 and 64 in any state produced
by `__flux_make_error`). -/
structure flux_error where
  code : Int
  msg : List Nat
  file : List Nat
  line : Nat
deriving DecidableEq, Repr

/-- `struct flux_guard` (src/libflux.h lines 37-41).  Function and data
pointers become plain numbers (0 = NULL); `next` is a pool index
(`none` = NULL). -/
structure flux_guard where
  dtor : Nat
  ptr : Nat
  next : Option Nat
deriving DecidableEq, Repr

/-- `struct flux_scope` (src/libflux.h lines 43-48).  The `jmp_buf` is not
represented: control transfer is modelled structurally by the outcome
types below.  `guards` is the head pool index of the scope's guard list. -/
structure flux_scope where
  err : flux_error
  guards : Option Nat
  active : Bool
deriving DecidableEq, Repr

/-- `struct flux_pool` (src/libflux.h lines 50-53). -/
structure flux_pool where
  guards : List flux_guard
  idx : Nat
deriving DecidableEq, Repr

/-- `struct flux_tls` (src/libflux.h lines 67-71): the per-thread state.
`top` is a C `int` and is therefore an `Int` (-1 is the documented empty
value). -/
structure flux_tls where
  stack : List flux_scope
  top : Int
  pool : flux_pool
deriving DecidableEq, Repr

/-! ### Error object construction and rendering -/

/-- Byte values of an ASCII string literal. -/
def ascii (s : String) : List Nat := s.toList.map Char.toNat

/-- The suffix of `f` strictly after the last occurrence of byte `c`
(`strrchr` + 1), or `none` when `c` does not occur. -/
def afterLast (c : Nat) : List Nat → Option (List Nat)
  | [] => none
  | x :: xs =>
    match afterLast c xs with
    | some r => some r
    | none => if x = c then some xs else none

/-- The basename computation of `__flux_make_error` (src/libflux.h lines
146-148): the component after the last `/` (byte 47); failing that, after
the last `\` (byte 92); failing that, the whole path. -/
def basename (f : List Nat) : List Nat :=
  match afterLast 47 f with
  | some r => r
  | none =>
    match afterLast 92 f with
    | some r => r
    | none => f

/-- `strncpy(dst, src, n)` into a zeroed buffer of size `n`: the first `n`
bytes of `src`, zero-padded.  `src` is the C string content (no embedded
nulls). -/
def strncpyPad (src : List Nat) (n : Nat) : List Nat :=
  src.take n ++ List.replicate (n - src.length) 0

/-- `__flux_make_error` (src/libflux.h lines 138-154).  The struct is
zero-initialised; `msg` gets `strncpy(..., 511)` plus a forced null in
byte 511; `file` gets the basename via `strncpy(..., 63)` plus a forced
null in byte 63.  `none` models a NULL pointer argument. -/
def __flux_make_error (code : Int) (msg : Option (List Nat))
    (file : Option (List Nat)) (line : Nat) : flux_error :=
  { code := code
    msg :=
      match msg with
      | none => List.replicate FLUX_ERROR_MSG_MAX 0
      | some m => strncpyPad m (FLUX_ERROR_MSG_MAX - 1) ++ [0]
    file :=
      match file with
      | none => List.replicate 64 0
      | some f => strncpyPad (basename f) 63 ++ [0]
    line := line }

/-- Decimal digits (as byte values) of a natural number, as printed by
`%d`. -/
def decNat (n : Nat) : List Nat := (Nat.toDigits 10 n).map Char.toNat

/-- Decimal rendering of a C `int` by `%d`: a minus sign (byte 45) before
the digits when negative. -/
def decInt (i : Int) : List Nat :=
  if i < 0 then 45 :: decNat (-i).toNat else decNat i.toNat

/-- UTF-8 bytes of the flame emoji written by `flux_error_print`. -/
def fireBytes : List Nat := [240, 159, 148, 165]

/-- The bytes produced by
`fprintf(stderr, "🔥 [%s:%d] ERR %d: %s\n", e->file, e->line, (int)e->code, e->msg)`
(src/libflux.h line 158). -/
def renderLine (e : flux_error) : List Nat :=
  fireBytes ++ ascii " [" ++ cstr e.file ++ ascii ":" ++ decNat e.line ++
    ascii "] ERR " ++ decInt e.code ++ ascii ": " ++ cstr e.msg ++ ascii "\n"

/-- `flux_error_print` (src/libflux.h lines 156-160): prints nothing when
the first message byte is null, the full diagnostic line otherwise.  The
result is the byte sequence written to the diagnostic sink. -/
def flux_error_print (e : flux_error) : List Nat :=
  if e.msg.headD 0 = 0 then [] else renderLine e

/-- Modelled from the spec: the diagnostic line format the specification
claims for rendering, exactly
`[<basename>:<line>] ERR <code>: <message>` and nothing else.  Written
from the words of the spec (section 6, "Render error"), to be compared
with `flux_error_print`. -/
def spec_diagnostic_line (e : flux_error) : List Nat :=
  ascii "[" ++ cstr e.file ++ ascii ":" ++ decNat e.line ++
    ascii "] ERR " ++ decInt e.code ++ ascii ": " ++ cstr e.msg


/-! ### Guard pool operations -/

/-- `__flux_acquire_guard` (src/libflux.h lines 116-123): bump-allocate
the next slot; on exhaustion the cursor is restored (`fetch_add` followed
by `fetch_sub`) so the pool is returned unchanged and no slot is handed
out. -/
def __flux_acquire_guard (p : flux_pool) : Option Nat × flux_pool :=
  if p.idx ≥ FLUX_POOL_SIZE then (none, p)
  else (some p.idx, { p with idx := p.idx + 1 })

/-- `__flux_reset_pool` (src/libflux.h lines 125-127): the cursor goes
back to absolute zero. -/
def __flux_reset_pool (p : flux_pool) : flux_pool := { p with idx := 0 }

/-- `__flux_release_guards` (src/libflux.h lines 129-136): walk the list
from `head` following the `next` links through the pool's *current*
memory, invoking each node whose function and argument are both non-null.
The result is the sequence of performed calls `(dtor, ptr)` in call
order.  `fuel` bounds the walk so the function is total; every list built
by the registration protocol has strictly decreasing indices, so
`FLUX_POOL_SIZE + 1` fuel always suffices to reproduce the C walk. -/
def __flux_release_guards (pool : List flux_guard) : Nat → Option Nat → List (Nat × Nat)
  | _, none => []
  | 0, some _ => []
  | fuel+1, some i =>
    match pool.get? i with
    | none => []
    | some g =>
      (if g.dtor ≠ 0 ∧ g.ptr ≠ 0 then [(g.dtor, g.ptr)] else []) ++
        __flux_release_guards pool fuel g.next

/-! ### Control protocol operations -/

/-- Reading `stack[n]`; the default is never reached from a state whose
stack has the C array length 64 and whose index passed the C bounds
checks. -/
def stackRead (s : flux_tls) (n : Nat) : flux_scope :=
  s.stack.getD n ⟨⟨0, [], [], 0⟩, none, false⟩

/-- Message thrown by `FLUX_THROW_LIMIT()` (src/libflux.h line 186). -/
def limitMsg : List Nat := ascii "resource limit exceeded"

/-- Outcome of `FLUX_THROW` (src/libflux.h lines 162-172): either the
error is stored in the top record and control transfers to its capture
point (`jumped`), or no scope is active and the process prints the given
diagnostic bytes and aborts (`fatal`). -/
inductive ThrowR where
  | jumped (s : flux_tls)
  | fatal (out : List Nat)
deriving DecidableEq, Repr

/-- `FLUX_THROW(code, msg)` at a call site `file:line`
(src/libflux.h lines 162-172). -/
def FLUX_THROW (code : Int) (msg : Option (List Nat)) (file : Option (List Nat))
    (line : Nat) (s : flux_tls) : ThrowR :=
  if 0 ≤ s.top ∧ s.top < (FLUX_MAX_DEPTH : Int) then
    .jumped { s with
      stack := listModify
        (fun sc => { sc with err := __flux_make_error code msg file line })
        s.top.toNat s.stack }
  else
    .fatal (flux_error_print (__flux_make_error code msg file line))

/-- Outcome of `FLUX_TRY` (src/libflux.h lines 188-196): a record is
pushed (`entered`), the depth check fails and the process aborts
(`aborted`), or the push would write below the array (`ub`, only possible
from a state with `top < -1`, which no execution reaches). -/
inductive EnterR where
  | entered (s : flux_tls)
  | aborted
  | ub
deriving DecidableEq, Repr

/-- `FLUX_TRY` (src/libflux.h lines 188-196): abort when
`top + 1 >= FLUX_MAX_DEPTH`; otherwise increment `top`, clear the new
record's guard list, set it active, and reset the pool cursor to zero. -/
def FLUX_TRY (s : flux_tls) : EnterR :=
  if (FLUX_MAX_DEPTH : Int) ≤ s.top + 1 then .aborted
  else if s.top + 1 < 0 then .ub
  else .entered { s with
    top := s.top + 1
    stack := listModify (fun sc => { sc with guards := none, active := true })
      (s.top + 1).toNat s.stack
    pool := __flux_reset_pool s.pool }

/-- Outcome of `FLUX_DEFER` (src/libflux.h lines 211-222): the guard is
linked (`ok`); or the pool is exhausted and `FLUX_THROW_LIMIT()` runs,
which either transfers control (`thrown`) or aborts with a diagnostic
(`fatal`); or the unchecked `stack[top]` access is out of the array
bounds (`ub`). -/
inductive DeferR where
  | ok (s : flux_tls)
  | thrown (s : flux_tls)
  | fatal (out : List Nat)
  | ub
deriving DecidableEq, Repr

/-- `FLUX_DEFER(dt, p)` at a call site `file:line`
(src/libflux.h lines 211-222).  A slot is claimed first; on success the
node is written (`next` takes the current head read from `stack[top]`)
and head-linked onto `stack[top].guards` — with no check that any scope
is active, so the access is out of bounds unless `0 <= top < 64`. -/
def FLUX_DEFER (dt p : Nat) (file : Option (List Nat)) (line : Nat)
    (s : flux_tls) : DeferR :=
  match __flux_acquire_guard s.pool with
  | (some g, pool1) =>
    if 0 ≤ s.top ∧ s.top < (FLUX_MAX_DEPTH : Int) then
      let sc := stackRead s s.top.toNat
      .ok { s with
        pool := { pool1 with
          guards := listModify (fun _ => ⟨dt, p, sc.guards⟩) g pool1.guards }
        stack := listModify (fun sc2 => { sc2 with guards := some g })
          s.top.toNat s.stack }
    else .ub
  | (none, _) =>
    match FLUX_THROW 5 (some limitMsg) file line s with
    | .jumped s2 => .thrown s2
    | .fatal out => .fatal out

/-- The success arm of `FLUX_CATCH` (src/libflux.h lines 198-200): clear
the active flag of record `l` and pop. -/
def fluxCatchSuccess (l : Nat) (s : flux_tls) : flux_tls :=
  { s with
    stack := listModify (fun sc => { sc with active := false }) l s.stack
    top := s.top - 1 }

/-- The failure arm of `FLUX_CATCH` (src/libflux.h lines 201-205),
entered through the capture point of record `l`: run the record's guard
list through the pool's current memory, clear the active flag, pop.
Returns the popped state and the performed cleanup calls. -/
def fluxCatchFail (l : Nat) (s : flux_tls) : flux_tls × List (Nat × Nat) :=
  (({ s with
      stack := listModify (fun sc => { sc with active := false }) l s.stack
      top := s.top - 1 }),
    __flux_release_guards s.pool.guards (FLUX_POOL_SIZE + 1)
      (stackRead s l).guards)

/-- A signalled failure followed by the unwind it transfers control to:
`FLUX_THROW` into the failure arm of the enclosing `FLUX_CATCH`.
`none` when no scope is active (the process aborts instead). -/
def throwUnwind (code : Int) (msg : Option (List Nat)) (s : flux_tls) :
    Option (flux_tls × List (Nat × Nat)) :=
  match FLUX_THROW code msg none 0 s with
  | .jumped s2 => some (fluxCatchFail s2.top.toNat s2)
  | .fatal _ => none

/-- Registration of a whole list of guards in order (repeated
`FLUX_DEFER`), stopping at the first outcome that is not `ok`. -/
def registerAll : List (Nat × Nat) → flux_tls → DeferR
  | [], s => .ok s
  | q :: rest, s =>
    match FLUX_DEFER q.1 q.2 none 0 s with
    | .ok s1 => registerAll rest s1
    | r => r

/-- `n` consecutive scope entries (`FLUX_TRY` nested `n` deep), `none` as
soon as one aborts. -/
def enterN : Nat → flux_tls → Option flux_tls
  | 0, s => some s
  | n+1, s =>
    match FLUX_TRY s with
    | .entered s1 => enterN n s1
    | _ => none

/-- The thread-local state as `__flux_get_tls` creates it
(src/libflux.h line 105): `calloc` leaves every field zero — in
particular `top = 0`, not the documented empty value `-1`. -/
def initTLS : flux_tls :=
  { stack := List.replicate FLUX_MAX_DEPTH
      ⟨⟨0, List.replicate FLUX_ERROR_MSG_MAX 0, List.replicate 64 0, 0⟩, none, false⟩
    top := 0
    pool := { guards := List.replicate FLUX_POOL_SIZE ⟨0, 0, none⟩, idx := 0 } }

/-- The state with the data model's documented empty stack encoding
`top = -1` (spec section 3), otherwise identical to the zeroed state. -/
def emptyTLS : flux_tls := { initTLS with top := -1 }

/-- The state of the zero-initialised thread right after its first
`FLUX_TRY`. -/
def enteredTLS : flux_tls :=
  match FLUX_TRY initTLS with
  | .entered s => s
  | _ => initTLS

/-! ### Scope blocks

A structured program of the four primitives, for the claims about
complete blocks: `tryB` is a full `FLUX_TRY ... FLUX_CATCH(e) FLUX_END_TRY`
block (with an empty handler), and a signalled failure transfers control
to the innermost enclosing block, exactly as `longjmp` to the capture
point recorded by the innermost `FLUX_TRY` does. -/

inductive Body where
  | nop
  | seq (a b : Body)
  | deferB (dt p : Nat)
  | throwB (code : Int) (msg : Option (List Nat))
  | tryB (inner : Body)
deriving DecidableEq, Repr

/-- Outcome of running a block body: fell through normally, signalled a
failure that is propagating to the innermost enclosing block, aborted the
process, or performed an out-of-bounds access. -/
inductive Out where
  | normal (s : flux_tls)
  | failed (s : flux_tls)
  | aborted
  | ub
deriving DecidableEq, Repr

/-- Big-step execution of a scope block body, also collecting the cleanup
calls performed by unwinds, in order. -/
def exec : Body → flux_tls → Out × List (Nat × Nat)
  | .nop, s => (.normal s, [])
  | .seq a b, s =>
    match exec a s with
    | (.normal s1, ev) => ((exec b s1).1, ev ++ (exec b s1).2)
    | r => r
  | .deferB dt p, s =>
    match FLUX_DEFER dt p none 0 s with
    | .ok s1 => (.normal s1, [])
    | .thrown s1 => (.failed s1, [])
    | .fatal _ => (.aborted, [])
    | .ub => (.ub, [])
  | .throwB c m, s =>
    match FLUX_THROW c m none 0 s with
    | .jumped s1 => (.failed s1, [])
    | .fatal _ => (.aborted, [])
  | .tryB a, s =>
    match FLUX_TRY s with
    | .aborted => (.aborted, [])
    | .ub => (.ub, [])
    | .entered s1 =>
      match exec a s1 with
      | (.normal s2, ev) => (.normal (fluxCatchSuccess s1.top.toNat s2), ev)
      | (.failed s2, ev) =>
        ((.normal (fluxCatchFail s1.top.toNat s2).1),
          ev ++ (fluxCatchFail s1.top.toNat s2).2)
      | r => r

/-- A body that registers the given guards in order and does nothing
else. -/
def defersOf : List (Nat × Nat) → Body
  | [] => .nop
  | q :: rest => .seq (.deferB q.1 q.2) (defersOf rest)


/-! ### Helper lemmas about the primitives -/

theorem getD_eq_get?_getD (l : List α) (n : Nat) (d : α) :
    l.getD n d = (l.get? n).getD d := by
  induction l generalizing n with
  | nil => cases n <;> rfl
  | cons a t ih => cases n with
    | zero => rfl
    | succ m => simpa using ih m

theorem stackRead_of_get? {s : flux_tls} {n : Nat} {sc : flux_scope}
    (h : s.stack.get? n = some sc) : stackRead s n = sc := by
  unfold stackRead
  rw [getD_eq_get?_getD, h]
  rfl

theorem getD_append_left {l l2 : List α} {n : Nat} (d : α) (h : n < l.length) :
    (l ++ l2).getD n d = l.getD n d := by
  induction l generalizing n with
  | nil => exact absurd h (by simp)
  | cons a t ih =>
    cases n with
    | zero => rfl
    | succ m => simpa using ih (by simpa using h)

theorem getD_snoc (l : List α) (q : α) (d : α) : (l ++ [q]).getD l.length d = q := by
  induction l with
  | nil => rfl
  | cons a t ih => simpa using ih

/-- The head pool index of a scope's guard list after registering `ps`
starting at pool cursor `k` onto a list whose previous head was `hd`. -/
def chainHd (k : Nat) (hd : Option Nat) : List (Nat × Nat) → Option Nat
  | [] => hd
  | ps => some (k + ps.length - 1)

theorem chainHd_cons (k : Nat) (hd : Option Nat) (q : Nat × Nat)
    (rest : List (Nat × Nat)) :
    chainHd k hd (q :: rest) = chainHd (k + 1) (some k) rest := by
  cases rest with
  | nil => simp [chainHd]
  | cons a t => simp [chainHd] <;> omega

theorem chainHd_snoc (k : Nat) (hd : Option Nat) (qs : List (Nat × Nat))
    (q : Nat × Nat) :
    chainHd k hd (qs ++ [q]) = some (k + qs.length) := by
  cases qs with
  | nil => simp [chainHd]
  | cons a t => simp [chainHd] <;> omega

theorem chainHd_ite (k : Nat) (hd : Option Nat) (qs : List (Nat × Nat)) :
    (if qs.length = 0 then hd else some (k + qs.length - 1)) = chainHd k hd qs := by
  cases qs with
  | nil => simp [chainHd]
  | cons a t => simp [chainHd]

theorem maxDepth_cast : ((FLUX_MAX_DEPTH : Nat) : Int) = 64 := by
  simp [FLUX_MAX_DEPTH]

theorem fluxTry_entered_of {s : flux_tls} (h0 : 0 ≤ s.top + 1)
    (h1 : s.top + 1 < 64) :
    FLUX_TRY s = .entered { s with
      top := s.top + 1
      stack := listModify (fun sc => { sc with guards := none, active := true })
        (s.top + 1).toNat s.stack
      pool := __flux_reset_pool s.pool } := by
  have hA : ¬ ((FLUX_MAX_DEPTH : Int) ≤ s.top + 1) := by rw [maxDepth_cast]; omega
  have hB : ¬ (s.top + 1 < 0) := by omega
  unfold FLUX_TRY
  rw [if_neg hA, if_neg hB]

theorem fluxTry_entered_inv {s s1 : flux_tls} (h : FLUX_TRY s = .entered s1) :
    s1.top = s.top + 1 ∧ 0 ≤ s1.top ∧ s1.top ≤ 63 ∧
    s1.pool.guards = s.pool.guards ∧ s1.pool.idx = 0 ∧
    s1.stack = listModify (fun sc => { sc with guards := none, active := true })
      (s.top + 1).toNat s.stack ∧
    s1.stack.length = s.stack.length := by
  unfold FLUX_TRY at h
  by_cases hA : (FLUX_MAX_DEPTH : Int) ≤ s.top + 1
  · rw [if_pos hA] at h; cases h
  · rw [if_neg hA] at h
    by_cases hB : s.top + 1 < 0
    · rw [if_pos hB] at h; cases h
    · rw [if_neg hB] at h
      rw [maxDepth_cast] at hA
      cases h
      refine ⟨rfl, ?_, ?_, rfl, rfl, rfl, length_listModify _ _ _⟩
      · show (0:Int) ≤ s.top + 1
        omega
      · show s.top + 1 ≤ 63
        omega

theorem fluxThrow_jumped_of (c : Int) (m fl : Option (List Nat)) (ln : Nat)
    {s : flux_tls} (h0 : 0 ≤ s.top) (h1 : s.top < 64) :
    FLUX_THROW c m fl ln s = .jumped { s with
      stack := listModify
        (fun sc => { sc with err := __flux_make_error c m fl ln })
        s.top.toNat s.stack } := by
  have hA : 0 ≤ s.top ∧ s.top < (FLUX_MAX_DEPTH : Int) := by
    rw [maxDepth_cast]; omega
  unfold FLUX_THROW
  rw [if_pos hA]

theorem fluxThrow_fatal_of (c : Int) (m fl : Option (List Nat)) (ln : Nat)
    {s : flux_tls} (h0 : s.top < 0 ∨ 64 ≤ s.top) :
    FLUX_THROW c m fl ln s =
      .fatal (flux_error_print (__flux_make_error c m fl ln)) := by
  have hA : ¬ (0 ≤ s.top ∧ s.top < (FLUX_MAX_DEPTH : Int)) := by
    rw [maxDepth_cast]; omega
  unfold FLUX_THROW
  rw [if_neg hA]

theorem fluxDefer_ok_of (dt p : Nat) (fl : Option (List Nat)) (ln : Nat)
    {s : flux_tls} {sc : flux_scope} (hidx : s.pool.idx < 2048)
    (h0 : 0 ≤ s.top) (h1 : s.top < 64)
    (hget : s.stack.get? s.top.toNat = some sc) :
    FLUX_DEFER dt p fl ln s = .ok { s with
      pool := { guards := listModify (fun _ => ⟨dt, p, sc.guards⟩) s.pool.idx s.pool.guards,
                idx := s.pool.idx + 1 }
      stack := listModify (fun sc2 => { sc2 with guards := some s.pool.idx })
        s.top.toNat s.stack } := by
  have hA : ¬ (s.pool.idx ≥ FLUX_POOL_SIZE) := by simp only [FLUX_POOL_SIZE]; omega
  have hB : 0 ≤ s.top ∧ s.top < (FLUX_MAX_DEPTH : Int) := by
    rw [maxDepth_cast]; omega
  unfold FLUX_DEFER __flux_acquire_guard
  rw [if_neg hA]
  simp only
  rw [if_pos hB, stackRead_of_get? hget]

theorem fluxDefer_exhausted (dt p : Nat) (fl : Option (List Nat)) (ln : Nat)
    {s : flux_tls} (hidx : 2048 ≤ s.pool.idx) (h0 : 0 ≤ s.top)
    (h1 : s.top < 64) :
    FLUX_DEFER dt p fl ln s = .thrown { s with
      stack := listModify
        (fun sc => { sc with err := __flux_make_error 5 (some limitMsg) fl ln })
        s.top.toNat s.stack } := by
  have hA : s.pool.idx ≥ FLUX_POOL_SIZE := by simp only [FLUX_POOL_SIZE]; omega
  unfold FLUX_DEFER __flux_acquire_guard
  rw [if_pos hA]
  simp only
  rw [fluxThrow_jumped_of 5 (some limitMsg) fl ln h0 h1]

/-! ### The registration invariant

Registering `ps` from a well-formed state whose pool cursor stands at `k`
and whose top record's guard list has head `hd` succeeds (given capacity),
writes the nodes of `ps` into pool slots `k .. k+|ps|-1` linked
most-recent-first, leaves every other slot and every other stack record
untouched, and moves the head to the last written slot. -/

theorem registerAll_spec :
    ∀ (ps : List (Nat × Nat)) (s : flux_tls) (k : Nat) (sc : flux_scope),
    s.stack.length = 64 → 0 ≤ s.top → s.top < 64 →
    s.pool.guards.length = 2048 → s.pool.idx = k →
    s.stack.get? s.top.toNat = some sc →
    k + ps.length ≤ 2048 →
    ∃ s2, registerAll ps s = .ok s2 ∧
      s2.top = s.top ∧
      s2.stack.length = 64 ∧
      s2.pool.guards.length = 2048 ∧
      s2.pool.idx = k + ps.length ∧
      s2.stack.get? s.top.toNat = some { sc with guards := chainHd k sc.guards ps } ∧
      (∀ j, j < ps.length → s2.pool.guards.get? (k + j) =
        some ⟨(ps.getD j (0, 0)).1, (ps.getD j (0, 0)).2,
              if j = 0 then sc.guards else some (k + j - 1)⟩) ∧
      (∀ i, i < k → s2.pool.guards.get? i = s.pool.guards.get? i) ∧
      (∀ i, k + ps.length ≤ i → s2.pool.guards.get? i = s.pool.guards.get? i) ∧
      (∀ n, n ≠ s.top.toNat → s2.stack.get? n = s.stack.get? n) := by
  intro ps
  induction ps with
  | nil =>
    intro s k sc hlen htop0 htop1 hplen hidx hget hcap
    refine ⟨s, rfl, rfl, hlen, hplen, by simpa using hidx, ?_, ?_, ?_, ?_, ?_⟩
    · simpa [chainHd] using hget
    · intro j hj; exact absurd hj (by simp)
    · intro i _; rfl
    · intro i _; rfl
    · intro n _; rfl
  | cons q rest ih =>
    intro s k sc hlen htop0 htop1 hplen hidx hget hcap
    have hk : k < 2048 := by
      have := hcap; simp [List.length_cons] at this; omega
    have hidx2 : s.pool.idx < 2048 := by omega
    have hdef := fluxDefer_ok_of q.1 q.2 none 0 hidx2 htop0 htop1 hget
    rw [hidx] at hdef
    set s1 : flux_tls := { s with
      pool := { guards := listModify (fun _ => ⟨q.1, q.2, sc.guards⟩) k s.pool.guards,
                idx := k + 1 }
      stack := listModify (fun sc2 => { sc2 with guards := some k })
        s.top.toNat s.stack } with hs1
    have hs1top : s1.top = s.top := rfl
    have hs1len : s1.stack.length = 64 := by
      rw [hs1]; simpa [length_listModify] using hlen
    have hs1plen : s1.pool.guards.length = 2048 := by
      rw [hs1]; simpa [length_listModify] using hplen
    have hs1idx : s1.pool.idx = k + 1 := rfl
    have hs1get : s1.stack.get? s.top.toNat = some { sc with guards := some k } := by
      rw [hs1]
      show (listModify _ s.top.toNat s.stack).get? s.top.toNat = _
      rw [get?_listModify_eq, hget]
      rfl
    have hcap1 : (k + 1) + rest.length ≤ 2048 := by
      simp [List.length_cons] at hcap; omega
    obtain ⟨s2, hreg, htop2, hlen2, hplen2, hidx2b, hrec2, hnodes2, hlow2, hhigh2, hstk2⟩ :=
      ih s1 (k + 1) { sc with guards := some k } hs1len (by rw [hs1top]; exact htop0)
        (by rw [hs1top]; exact htop1) hs1plen hs1idx hs1get hcap1
    refine ⟨s2, ?_, ?_, hlen2, hplen2, ?_, ?_, ?_, ?_, ?_, ?_⟩
    · show registerAll (q :: rest) s = .ok s2
      unfold registerAll
      rw [hdef]
      exact hreg
    · rw [htop2, hs1top]
    · rw [hidx2b]; simp [List.length_cons]; omega
    · rw [hrec2, chainHd_cons]
    · intro j hj
      cases j with
      | zero =>
        have hlow := hlow2 k (by omega)
        simp only [Nat.add_zero, List.getD_cons_zero]
        rw [hlow]
        show (listModify (fun _ => (⟨q.1, q.2, sc.guards⟩ : flux_guard)) k
          s.pool.guards).get? k = _
        rw [get?_listModify_eq]
        cases hg : s.pool.guards.get? k with
        | none =>
          have := List.get?_eq_none.mp hg
          omega
        | some g0 => simp
      | succ j2 =>
        have hj2 : j2 < rest.length := by
          simpa [List.length_cons] using hj
        have h2 := hnodes2 j2 hj2
        rw [show (k + 1) + j2 = k + (j2 + 1) from by omega] at h2
        rw [h2]
        simp only [List.getD_cons_succ, Option.some.injEq, flux_guard.mk.injEq]
        refine ⟨trivial, trivial, ?_⟩
        by_cases h0 : j2 = 0
        · subst h0
          simp
        · rw [if_neg h0, if_neg (by omega : ¬ (j2 + 1 = 0))]
    · intro i hi
      rw [hlow2 i (by omega), hs1]
      show (listModify _ k s.pool.guards).get? i = _
      rw [get?_listModify_ne _ _ _ _ (by omega)]
    · intro i hi
      have hi2 : (k + 1) + rest.length ≤ i := by
        simp [List.length_cons] at hi; omega
      rw [hhigh2 i hi2, hs1]
      show (listModify _ k s.pool.guards).get? i = _
      rw [get?_listModify_ne _ _ _ _ (by omega)]
    · intro n hn
      rw [hstk2 n (by rw [hs1top]; exact hn), hs1]
      show (listModify _ s.top.toNat s.stack).get? n = _
      rw [get?_listModify_ne _ _ _ _ hn]

/-! ### The release invariant

Walking a guard list whose nodes sit in pool slots `k .. k+|ps|-1`
(linked most-recent-first, continuing into `hd`) performs exactly the
non-null registrations of `ps` in reverse registration order, then
continues the walk at `hd`. -/

theorem release_step (pool : List flux_guard) (f : Nat) (i : Nat) (g : flux_guard)
    (h : pool.get? i = some g) :
    __flux_release_guards pool (f + 1) (some i) =
      (if g.dtor ≠ 0 ∧ g.ptr ≠ 0 then [(g.dtor, g.ptr)] else []) ++
        __flux_release_guards pool f g.next := by
  conv_lhs => rw [__flux_release_guards]
  rw [h]

theorem release_chain :
    ∀ (ps : List (Nat × Nat)) (pool : List flux_guard) (k : Nat)
      (hd : Option Nat) (fuel : Nat),
    (∀ j, j < ps.length → pool.get? (k + j) =
      some ⟨(ps.getD j (0, 0)).1, (ps.getD j (0, 0)).2,
            if j = 0 then hd else some (k + j - 1)⟩) →
    ps.length ≤ fuel →
    __flux_release_guards pool fuel (chainHd k hd ps) =
      (ps.reverse.filter fun q => decide (q.1 ≠ 0 ∧ q.2 ≠ 0)) ++
        __flux_release_guards pool (fuel - ps.length) hd := by
  intro ps
  induction ps using List.reverseRecOn with
  | nil =>
    intro pool k hd fuel hnodes hfuel
    simp [chainHd]
  | append_singleton qs q ih =>
    intro pool k hd fuel hnodes hfuel
    have hlen : (qs ++ [q]).length = qs.length + 1 := by simp
    rw [hlen] at hfuel
    cases fuel with
    | zero => omega
    | succ f =>
      have hq := hnodes qs.length (by simp)
      rw [getD_snoc] at hq
      rw [chainHd_snoc, hlen, release_step pool f (k + qs.length) _ hq]
      dsimp only
      rw [chainHd_ite k hd qs]
      have hnodes2 : ∀ j, j < qs.length → pool.get? (k + j) =
          some ⟨(qs.getD j (0, 0)).1, (qs.getD j (0, 0)).2,
                if j = 0 then hd else some (k + j - 1)⟩ := by
        intro j hj
        have h3 := hnodes j (by simp; omega)
        rwa [getD_append_left _ hj] at h3
      rw [ih pool k hd f hnodes2 (by omega),
        show f + 1 - (qs.length + 1) = f - qs.length from by omega]
      obtain ⟨q1, q2⟩ := q
      by_cases hc : q1 ≠ 0 ∧ q2 ≠ 0
      · simp [hc, List.filter_append, List.filter_cons]
      · simp [hc, List.filter_append, List.filter_cons]

/-! ### Inversion lemmas and execution invariants -/

theorem fluxThrow_jumped_inv {c : Int} {m fl : Option (List Nat)} {ln : Nat}
    {s s1 : flux_tls} (h : FLUX_THROW c m fl ln s = .jumped s1) :
    s1.top = s.top ∧ 0 ≤ s.top ∧ s.top < 64 ∧ s1.pool = s.pool ∧
    s1.stack = listModify
      (fun sc => { sc with err := __flux_make_error c m fl ln })
      s.top.toNat s.stack := by
  unfold FLUX_THROW at h
  split at h
  · rename_i hc
    rw [maxDepth_cast] at hc
    cases h
    exact ⟨rfl, hc.1, hc.2, rfl, rfl⟩
  · cases h

theorem fluxDefer_ok_inv {dt p : Nat} {fl : Option (List Nat)} {ln : Nat}
    {s s1 : flux_tls} (h : FLUX_DEFER dt p fl ln s = .ok s1) :
    s1.top = s.top ∧ 0 ≤ s.top ∧ s.top < 64 := by
  unfold FLUX_DEFER at h
  split at h
  · split at h
    · rename_i hc
      rw [maxDepth_cast] at hc
      cases h
      exact ⟨rfl, hc.1, hc.2⟩
    · cases h
  · split at h
    · cases h
    · cases h

theorem fluxDefer_thrown_inv {dt p : Nat} {fl : Option (List Nat)} {ln : Nat}
    {s s1 : flux_tls} (h : FLUX_DEFER dt p fl ln s = .thrown s1) :
    s1.top = s.top ∧ 0 ≤ s.top ∧ s.top < 64 := by
  unfold FLUX_DEFER at h
  split at h
  · split at h
    · cases h
    · cases h
  · split at h
    · rename_i hthrow
      cases h
      have := fluxThrow_jumped_inv hthrow
      exact ⟨this.1, this.2.1, this.2.2.1⟩
    · cases h

theorem fluxCatchSuccess_top (l : Nat) (s : flux_tls) :
    (fluxCatchSuccess l s).top = s.top - 1 := rfl

theorem fluxCatchFail_top (l : Nat) (s : flux_tls) :
    (fluxCatchFail l s).1.top = s.top - 1 := rfl

/-- Tops are preserved by a body run: a body that falls through normally
leaves `top` where it started, and a body whose failure is still
propagating has not yet popped anything either (the pop happens in the
enclosing block's catch). -/
theorem exec_top : ∀ (b : Body) (s : flux_tls),
    (∀ s2 ev, exec b s = (.normal s2, ev) → s2.top = s.top) ∧
    (∀ s2 ev, exec b s = (.failed s2, ev) → s2.top = s.top) := by
  intro b
  induction b with
  | nop =>
    intro s
    constructor <;> intro s2 ev h
    · cases h; rfl
    · cases h
  | seq a b iha ihb =>
    intro s
    constructor <;> intro s2 ev h <;> simp only [exec] at h
    · split at h
      · rename_i s1 ev1 heq
        rcases hb : exec b s1 with ⟨o, ev2⟩
        rw [hb] at h
        cases h
        rw [(ihb s1).1 s2 ev2 hb, (iha s).1 s1 ev1 heq]
      · rename_i r hne
        exact absurd h (hne s2 ev)
    · split at h
      · rename_i s1 ev1 heq
        rcases hb : exec b s1 with ⟨o, ev2⟩
        rw [hb] at h
        cases h
        rw [(ihb s1).2 s2 ev2 hb, (iha s).1 s1 ev1 heq]
      · rename_i r hne
        exact (iha s).2 s2 ev h
  | deferB dt p =>
    intro s
    constructor <;> intro s2 ev h <;> simp only [exec] at h
    · split at h
      · rename_i s1 hd
        cases h
        exact (fluxDefer_ok_inv hd).1
      · cases h
      · cases h
      · cases h
    · split at h
      · cases h
      · rename_i s1 hd
        cases h
        exact (fluxDefer_thrown_inv hd).1
      · cases h
      · cases h
  | throwB c m =>
    intro s
    constructor <;> intro s2 ev h <;> simp only [exec] at h
    · split at h
      · cases h
      · cases h
    · split at h
      · rename_i s1 hthrow
        cases h
        exact (fluxThrow_jumped_inv hthrow).1
      · cases h
  | tryB a iha =>
    intro s
    constructor <;> intro s2 ev h <;> simp only [exec] at h
    · split at h
      · cases h
      · cases h
      · rename_i s1 htry
        have htop1 := (fluxTry_entered_inv htry).1
        rcases hrun : exec a s1 with ⟨o, ev3⟩
        rw [hrun] at h
        cases o with
        | normal s3 =>
          cases h
          have h3 := (iha s1).1 s3 _ hrun
          rw [fluxCatchSuccess_top, h3, htop1]
          omega
        | failed s3 =>
          cases h
          have h3 := (iha s1).2 s3 _ hrun
          rw [fluxCatchFail_top, h3, htop1]
          omega
        | aborted => cases h
        | ub => cases h
    · split at h
      · cases h
      · cases h
      · rename_i s1 htry
        rcases hrun : exec a s1 with ⟨o, ev3⟩
        rw [hrun] at h
        cases o with
        | normal s3 => cases h
        | failed s3 => cases h
        | aborted => cases h
        | ub => cases h

/-- Running `defersOf ps` is exactly `registerAll ps` when every
registration succeeds, and performs no cleanup calls. -/
theorem exec_defersOf : ∀ (ps : List (Nat × Nat)) (s s2 : flux_tls),
    registerAll ps s = .ok s2 → exec (defersOf ps) s = (.normal s2, []) := by
  intro ps
  induction ps with
  | nil =>
    intro s s2 h
    cases h
    rfl
  | cons q rest ih =>
    intro s s2 h
    cases hd : FLUX_DEFER q.1 q.2 none 0 s with
    | ok s1 =>
      simp only [registerAll, hd] at h
      simp only [defersOf, exec, hd]
      rw [ih s1 s2 h]
      rfl
    | thrown s1 =>
      simp only [registerAll, hd] at h
      exact DeferR.noConfusion h
    | fatal o =>
      simp only [registerAll, hd] at h
      exact DeferR.noConfusion h
    | ub =>
      simp only [registerAll, hd] at h
      exact DeferR.noConfusion h

/-! ### Small shared helpers for the claim theorems -/

theorem release_none (pool : List flux_guard) (f : Nat) :
    __flux_release_guards pool f none = [] := by
  cases f <;> rfl

theorem filter_nonnull_eq_self (l : List (Nat × Nat))
    (h : ∀ q ∈ l, q.1 ≠ 0 ∧ q.2 ≠ 0) :
    (l.filter fun q => decide (q.1 ≠ 0 ∧ q.2 ≠ 0)) = l := by
  induction l with
  | nil => rfl
  | cons a t ih =>
    have ha := h a (by simp)
    have ht := ih fun q hq => h q (by simp [hq])
    simp [List.filter_cons, ha, ht]
    intro x y hxy
    simpa using h (x, y) (by simp [hxy])

theorem cstr_make_error_take (c : Int) (m : List Nat) (fl : Option (List Nat))
    (ln : Nat) (h0 : (0 : Nat) ∉ m) :
    cstr (__flux_make_error c (some m) fl ln).msg = m.take 511 := by
  have hmsg : (__flux_make_error c (some m) fl ln).msg =
      m.take 511 ++ (List.replicate (511 - m.length) 0 ++ [0]) := by
    show strncpyPad m (FLUX_ERROR_MSG_MAX - 1) ++ [0] = _
    norm_num [strncpyPad, FLUX_ERROR_MSG_MAX, List.append_assoc]
  rw [hmsg, cstr_append_of_ne]
  · have hz : cstr (List.replicate (511 - m.length) 0 ++ [0]) = [] := by
      cases hk : 511 - m.length with
      | zero => rfl
      | succ k2 => rw [List.replicate_succ, List.cons_append, cstr_zero_cons]
    rw [hz, List.append_nil]
  · intro x hx hx0
    exact h0 (List.take_subset _ _ (hx0 ▸ hx))

/-! ### Claim C1 -/

/-- C1 (amended): for every sequence of guard registrations in one freshly
entered scope followed by a signalled failure, the unwind walks the guard
list head to tail and invokes, in exactly reverse registration order and
each exactly once with its stored argument, every registered guard whose
cleanup action and argument are both non-null; a guard registered with a
null action or a null argument is traversed but skipped. -/
theorem C1_unwind_reverse_order (ps : List (Nat × Nat)) (s : flux_tls)
    (sc : flux_scope)
    (h1 : s.stack.length = 64) (h2 : 0 ≤ s.top) (h3 : s.top < 64)
    (h4 : s.pool.guards.length = 2048) (h5 : s.pool.idx = 0)
    (h6 : s.stack.get? s.top.toNat = some sc) (h7 : sc.guards = none)
    (h8 : ps.length ≤ 2048) (c : Int) (m : Option (List Nat)) :
    ∃ s1 s2 ev, registerAll ps s = .ok s1 ∧
      throwUnwind c m s1 = some (s2, ev) ∧
      ev = ps.reverse.filter (fun q => decide (q.1 ≠ 0 ∧ q.2 ≠ 0)) := by
  obtain ⟨s1, hreg, htop1, hlen1, hplen1, hidx1, hrec1, hnodes1, hlow1, hhigh1, hstk1⟩ :=
    registerAll_spec ps s 0 sc h1 h2 h3 h4 h5 h6 (by omega)
  have h2b : 0 ≤ s1.top := by rw [htop1]; exact h2
  have h3b : s1.top < 64 := by rw [htop1]; exact h3
  have hth := fluxThrow_jumped_of c m none 0 h2b h3b
  have htoneq : s1.top.toNat = s.top.toNat := by rw [htop1]
  set J : flux_tls := { s1 with
    stack := listModify
      (fun sc2 => { sc2 with err := __flux_make_error c m none 0 })
      s1.top.toNat s1.stack } with hJ
  have hJget : J.stack.get? s1.top.toNat =
      some { sc with guards := chainHd 0 sc.guards ps,
                     err := __flux_make_error c m none 0 } := by
    show (listModify
      (fun sc2 => { sc2 with err := __flux_make_error c m none 0 })
      s1.top.toNat s1.stack).get? s1.top.toNat = _
    rw [get?_listModify_eq, htoneq, hrec1]
    rfl
  refine ⟨s1, (fluxCatchFail s1.top.toNat J).1, (fluxCatchFail s1.top.toNat J).2,
    hreg, ?_, ?_⟩
  · unfold throwUnwind
    rw [hth]
  · show __flux_release_guards s1.pool.guards (FLUX_POOL_SIZE + 1)
      (stackRead J s1.top.toNat).guards = _
    rw [stackRead_of_get? hJget]
    show __flux_release_guards s1.pool.guards (FLUX_POOL_SIZE + 1)
      (chainHd 0 sc.guards ps) = _
    rw [h7] at hnodes1 ⊢
    rw [release_chain ps s1.pool.guards 0 none (FLUX_POOL_SIZE + 1) hnodes1
      (by simp only [FLUX_POOL_SIZE]; omega)]
    rw [release_none, List.append_nil]

/-- C1 counterexample: a guard registered with a null argument (here the
stored argument 0, i.e. NULL) is never invoked during the unwind, so the
claim that each of the N registered cleanup actions runs exactly once
with its stored argument fails at N = 1. -/
theorem C1_counterexample :
    (exec (.tryB (.seq (.deferB 5 0) (.throwB 4 (some (ascii "boom"))))) initTLS).2
      = [] ∧
    ([] : List (Nat × Nat)) ≠ [(5, 0)] := by
  constructor
  · decide
  · decide

/-- C1 witness: the amended theorem at a concrete two-guard scope. -/
theorem C1_witness :
    ∃ s1 s2 ev, registerAll [(3, 4), (7, 8)] enteredTLS = .ok s1 ∧
      throwUnwind 4 none s1 = some (s2, ev) ∧
      ev = ([((3 : Nat), (4 : Nat)), (7, 8)].reverse.filter
        (fun q => decide (q.1 ≠ 0 ∧ q.2 ≠ 0))) :=
  C1_unwind_reverse_order [(3, 4), (7, 8)] enteredTLS
    ⟨⟨0, List.replicate FLUX_ERROR_MSG_MAX 0, List.replicate 64 0, 0⟩, none, true⟩
    (by rw [show enteredTLS.stack = listModify (fun sc => { sc with guards := none, active := true }) 1 (List.replicate 64 ⟨⟨0, List.replicate FLUX_ERROR_MSG_MAX 0, List.replicate 64 0, 0⟩, none, false⟩) from rfl, length_listModify, List.length_replicate])
    (by decide) (by decide)
    (by rw [show enteredTLS.pool.guards = List.replicate 2048 ⟨0, 0, none⟩ from rfl, List.length_replicate])
    (by decide) (by decide) (by decide) (by decide) 4 none

/-! ### Claim C2 -/

/-- C2 (amended): when the nested scope registers no guards, an outer
scope that registered its guards before entering the nested scope and
fails after the nested scope's normal exit unwinds exactly its own
registered actions (here all non-null), each once, in reverse
registration order.  (When the nested scope does register guards, its
registrations reuse the pool slots holding the outer scope's nodes and
the outer unwind invokes the inner scope's actions instead — see the
counterexample.) -/
theorem C2_outer_guards_after_inner (ps : List (Nat × Nat)) (s : flux_tls)
    (sc : flux_scope)
    (h1 : s.stack.length = 64) (h2 : 0 ≤ s.top) (h3 : s.top < 63)
    (h4 : s.pool.guards.length = 2048) (h5 : s.pool.idx = 0)
    (h6 : s.stack.get? s.top.toNat = some sc) (h7 : sc.guards = none)
    (h8 : ps.length ≤ 2048)
    (hnn : ∀ q ∈ ps, q.1 ≠ 0 ∧ q.2 ≠ 0) (c : Int) (m : Option (List Nat)) :
    ∃ s1 s2 s3 ev, registerAll ps s = .ok s1 ∧
      FLUX_TRY s1 = .entered s2 ∧
      throwUnwind c m (fluxCatchSuccess s2.top.toNat s2) = some (s3, ev) ∧
      ev = ps.reverse := by
  obtain ⟨s1, hreg, htop1, hlen1, hplen1, hidx1, hrec1, hnodes1, hlow1, hhigh1, hstk1⟩ :=
    registerAll_spec ps s 0 sc h1 h2 (by omega) h4 h5 h6 (by omega)
  have htry := fluxTry_entered_of (s := s1) (by omega) (by omega)
  set s2L : flux_tls := { s1 with
    top := s1.top + 1
    stack := listModify (fun sc => { sc with guards := none, active := true })
      (s1.top + 1).toNat s1.stack
    pool := __flux_reset_pool s1.pool } with hs2L
  set s4 : flux_tls := fluxCatchSuccess s2L.top.toNat s2L with hs4
  have hs4top : s4.top = s.top := by
    rw [hs4, fluxCatchSuccess_top]
    show s1.top + 1 - 1 = s.top
    omega
  have h0b : 0 ≤ s4.top := by rw [hs4top]; exact h2
  have h1b : s4.top < 64 := by rw [hs4top]; omega
  have hth2 := fluxThrow_jumped_of c m none 0 h0b h1b
  set J2 : flux_tls := { s4 with
    stack := listModify
      (fun sc2 => { sc2 with err := __flux_make_error c m none 0 })
      s4.top.toNat s4.stack } with hJ2
  have hneidx : s.top.toNat ≠ (s1.top + 1).toNat := by omega
  have hs4get : s4.stack.get? s.top.toNat =
      some { sc with guards := chainHd 0 sc.guards ps } := by
    show (listModify (fun sc2 => { sc2 with active := false })
      s2L.top.toNat s2L.stack).get? s.top.toNat = _
    rw [show s2L.top.toNat = (s1.top + 1).toNat from rfl,
      get?_listModify_ne _ _ _ _ hneidx]
    show (listModify (fun sc2 => { sc2 with guards := none, active := true })
      (s1.top + 1).toNat s1.stack).get? s.top.toNat = _
    rw [get?_listModify_ne _ _ _ _ hneidx, hrec1]
  have hJ2get : J2.stack.get? s4.top.toNat =
      some { sc with guards := chainHd 0 sc.guards ps,
                     err := __flux_make_error c m none 0 } := by
    show (listModify (fun sc2 => { sc2 with err := __flux_make_error c m none 0 })
      s4.top.toNat s4.stack).get? s4.top.toNat = _
    rw [get?_listModify_eq, show s4.top.toNat = s.top.toNat from by rw [hs4top],
      hs4get]
    rfl
  refine ⟨s1, s2L, (fluxCatchFail s4.top.toNat J2).1,
    (fluxCatchFail s4.top.toNat J2).2, hreg, htry, ?_, ?_⟩
  · unfold throwUnwind
    rw [hth2]
  · show __flux_release_guards s1.pool.guards (FLUX_POOL_SIZE + 1)
      (stackRead J2 s4.top.toNat).guards = _
    rw [stackRead_of_get? hJ2get]
    show __flux_release_guards s1.pool.guards (FLUX_POOL_SIZE + 1)
      (chainHd 0 sc.guards ps) = _
    rw [h7] at hnodes1 ⊢
    rw [release_chain ps s1.pool.guards 0 none (FLUX_POOL_SIZE + 1) hnodes1
      (by simp only [FLUX_POOL_SIZE]; omega)]
    rw [release_none, List.append_nil]
    exact filter_nonnull_eq_self ps.reverse
      (fun q hq => hnn q (List.mem_reverse.mp hq))

/-- C2 counterexample: the outer scope registers the guard (1, 1); the
nested scope registers (2, 2), which reuses pool slot 0 — the very node
the outer scope's guard list points at.  After the nested scope exits
normally, the outer scope's failure unwind invokes (2, 2), the inner
scope's action, not the outer scope's registered (1, 1): the nested
registration did alter the outer scope's guard list. -/
theorem C2_counterexample :
    (exec (.tryB (.seq (.deferB 1 1)
      (.seq (.tryB (.deferB 2 2)) (.throwB 4 (some (ascii "x")))))) initTLS).2
      = [(2, 2)] ∧
    [((2 : Nat), (2 : Nat))] ≠ [(1, 1)] := by
  constructor
  · decide
  · decide

/-- C2 witness: the amended theorem at a concrete one-guard outer scope
with an empty nested scope. -/
theorem C2_witness :
    ∃ s1 s2 s3 ev, registerAll [(3, 4)] enteredTLS = .ok s1 ∧
      FLUX_TRY s1 = .entered s2 ∧
      throwUnwind 4 none (fluxCatchSuccess s2.top.toNat s2) = some (s3, ev) ∧
      ev = [((3 : Nat), (4 : Nat))].reverse :=
  C2_outer_guards_after_inner [(3, 4)] enteredTLS
    ⟨⟨0, List.replicate FLUX_ERROR_MSG_MAX 0, List.replicate 64 0, 0⟩, none, true⟩
    (by rw [show enteredTLS.stack = listModify (fun sc => { sc with guards := none, active := true }) 1 (List.replicate 64 ⟨⟨0, List.replicate FLUX_ERROR_MSG_MAX 0, List.replicate 64 0, 0⟩, none, false⟩) from rfl, length_listModify, List.length_replicate])
    (by decide) (by decide)
    (by rw [show enteredTLS.pool.guards = List.replicate 2048 ⟨0, 0, none⟩ from rfl, List.length_replicate])
    (by decide) (by decide) (by decide) (by decide) (by decide) 4 none

/-! ### Claim C3 -/

/-- C3: in a freshly entered scope the first 2048 registrations all
succeed; the 2049th registration finds the pool exhausted and itself
signals, through the normal failure path, a recoverable failure with
code 5 and message "resource limit exceeded", leaving the pool cursor,
the whole pool, and the scope's guard list exactly as the 2048 successful
registrations left them. -/
theorem C3_pool_exhaustion (ps : List (Nat × Nat)) (s : flux_tls)
    (sc : flux_scope)
    (h1 : s.stack.length = 64) (h2 : 0 ≤ s.top) (h3 : s.top < 64)
    (h4 : s.pool.guards.length = 2048) (h5 : s.pool.idx = 0)
    (h6 : s.stack.get? s.top.toNat = some sc)
    (h8 : ps.length = 2048) (dt p : Nat) (fl : Option (List Nat)) (ln : Nat) :
    ∃ s1 s2, registerAll ps s = .ok s1 ∧ s1.pool.idx = 2048 ∧
      FLUX_DEFER dt p fl ln s1 = .thrown s2 ∧
      s2.pool = s1.pool ∧
      s2.top = s1.top ∧
      (s2.stack.get? s2.top.toNat).map (fun r => r.guards) =
        (s1.stack.get? s1.top.toNat).map (fun r => r.guards) ∧
      (s2.stack.get? s2.top.toNat).map (fun r => r.err.code) = some 5 ∧
      (s2.stack.get? s2.top.toNat).map (fun r => cstr r.err.msg) = some limitMsg := by
  obtain ⟨s1, hreg, htop1, hlen1, hplen1, hidx1, hrec1, hnodes1, hlow1, hhigh1, hstk1⟩ :=
    registerAll_spec ps s 0 sc h1 h2 h3 h4 h5 h6 (by omega)
  have hidx2048 : s1.pool.idx = 2048 := by rw [hidx1]; omega
  have h2b : 0 ≤ s1.top := by rw [htop1]; exact h2
  have h3b : s1.top < 64 := by rw [htop1]; exact h3
  have hdef := fluxDefer_exhausted dt p fl ln (by omega) h2b h3b
  have hidxrw : s1.top.toNat = s.top.toNat := by rw [htop1]
  refine ⟨s1, { s1 with
      stack := listModify
        (fun sc => { sc with err := __flux_make_error 5 (some limitMsg) fl ln })
        s1.top.toNat s1.stack },
    hreg, hidx2048, hdef, rfl, rfl, ?_, ?_, ?_⟩
  · show ((listModify
      (fun sc => { sc with err := __flux_make_error 5 (some limitMsg) fl ln })
      s1.top.toNat s1.stack).get? s1.top.toNat).map _ = _
    rw [get?_listModify_eq, hidxrw, hrec1]
    rfl
  · show ((listModify
      (fun sc => { sc with err := __flux_make_error 5 (some limitMsg) fl ln })
      s1.top.toNat s1.stack).get? s1.top.toNat).map _ = _
    rw [get?_listModify_eq, hidxrw, hrec1]
    rfl
  · show ((listModify
      (fun sc => { sc with err := __flux_make_error 5 (some limitMsg) fl ln })
      s1.top.toNat s1.stack).get? s1.top.toNat).map _ = _
    rw [get?_listModify_eq, hidxrw, hrec1]
    show some (cstr (__flux_make_error 5 (some limitMsg) fl ln).msg) = some limitMsg
    rw [cstr_make_error_take 5 limitMsg fl ln (by decide),
      List.take_of_length_le (by decide)]

/-- C3 witness: the theorem at a concrete fully registered scope. -/
theorem C3_witness :
    ∃ s1 s2, registerAll (List.replicate 2048 ((1 : Nat), (1 : Nat))) enteredTLS
        = .ok s1 ∧
      s1.pool.idx = 2048 ∧
      FLUX_DEFER 9 9 none 0 s1 = .thrown s2 ∧
      s2.pool = s1.pool ∧
      s2.top = s1.top ∧
      (s2.stack.get? s2.top.toNat).map (fun r => r.guards) =
        (s1.stack.get? s1.top.toNat).map (fun r => r.guards) ∧
      (s2.stack.get? s2.top.toNat).map (fun r => r.err.code) = some 5 ∧
      (s2.stack.get? s2.top.toNat).map (fun r => cstr r.err.msg) = some limitMsg :=
  C3_pool_exhaustion (List.replicate 2048 (1, 1)) enteredTLS
    ⟨⟨0, List.replicate FLUX_ERROR_MSG_MAX 0, List.replicate 64 0, 0⟩, none, true⟩
    (by rw [show enteredTLS.stack = listModify (fun sc => { sc with guards := none, active := true }) 1 (List.replicate 64 ⟨⟨0, List.replicate FLUX_ERROR_MSG_MAX 0, List.replicate 64 0, 0⟩, none, false⟩) from rfl, length_listModify, List.length_replicate])
    (by decide) (by decide)
    (by rw [show enteredTLS.pool.guards = List.replicate 2048 ⟨0, 0, none⟩ from rfl, List.length_replicate])
    (by decide) (by decide)
    (by rw [List.length_replicate]) 9 9 none 0

/-! ### Claim C4 -/

/-- C4: evaluation of nested scope entries.  From the state `calloc`
actually creates (`initTLS`, whose `top` is 0, not the documented empty
value -1) only 63 nested entries succeed and the 64th aborts, because the
zeroed `top` makes the stack appear one level deep from the start.  From
the documented empty encoding `top = -1` (`emptyTLS`) the claimed
behaviour holds: 64 entries succeed and the 65th aborts without pushing
(the abort happens before `top` is incremented, so the state is
untouched). -/
theorem C4_depth_limit :
    (enterN 63 initTLS).isSome = true ∧ enterN 64 initTLS = none ∧
    (enterN 64 emptyTLS).isSome = true ∧ enterN 65 emptyTLS = none ∧
    (∀ s2, enterN 64 emptyTLS = some s2 → s2.top = 63 ∧ FLUX_TRY s2 = .aborted) := by
  refine ⟨by decide, by decide, by decide, by decide, ?_⟩
  intro s2 h
  constructor
  · have h1 : (enterN 64 emptyTLS).map (fun s => s.top) = some 63 := by decide
    rw [h] at h1
    simpa using h1
  · have h2 : (enterN 64 emptyTLS).map (fun s => FLUX_TRY s) = some EnterR.aborted := by
      decide
    rw [h] at h2
    simpa using h2

/-! ### Claim C5 -/

/-- C5 (amended): signalling a failure while no protected scope is active
(`top = -1`, the documented empty-stack encoding) always takes the fatal
path: the error is rendered to the diagnostic sink and the process
aborts; the failure is never handed to a handler.  The rendered
diagnostic is the one-line output of `flux_error_print`, which is
non-empty whenever the message is non-empty — but an empty or NULL
message produces no diagnostic at all before the abort (the
counterexample), so "emits a one-line diagnostic" holds only for
non-empty messages. -/
theorem C5_empty_stack_fatal (c : Int) (m fl : Option (List Nat)) (ln : Nat)
    (s : flux_tls) (h : s.top = -1) :
    FLUX_THROW c m fl ln s =
      .fatal (flux_error_print (__flux_make_error c m fl ln)) ∧
    (∀ s2, FLUX_THROW c m fl ln s ≠ .jumped s2) ∧
    (∀ bs, m = some bs → bs ≠ [] → (0 : Nat) ∉ bs →
      flux_error_print (__flux_make_error c m fl ln) ≠ []) := by
  have hfatal := fluxThrow_fatal_of c m fl ln (s := s) (by omega)
  refine ⟨hfatal, ?_, ?_⟩
  · intro s2 hj
    rw [hfatal] at hj
    exact ThrowR.noConfusion hj
  · intro bs hm hne h0
    subst hm
    obtain ⟨b, rest, rfl⟩ : ∃ b rest, bs = b :: rest := by
      cases bs with
      | nil => exact absurd rfl hne
      | cons b r => exact ⟨b, r, rfl⟩
    have hb : b ≠ 0 := fun hb => h0 (by simp [hb])
    have hhead : (__flux_make_error c (some (b :: rest)) fl ln).msg.headD 0 = b := by
      show (strncpyPad (b :: rest) (FLUX_ERROR_MSG_MAX - 1) ++ [0]).headD 0 = b
      norm_num [strncpyPad, FLUX_ERROR_MSG_MAX]
    unfold flux_error_print
    rw [if_neg (by rw [hhead]; exact hb)]
    simp [renderLine, fireBytes]

/-- C5 counterexample: signalling with a NULL message and no active scope
aborts with an *empty* diagnostic — no one-line diagnostic is emitted, so
"for every message ... emits a one-line diagnostic" fails (the process
still terminates). -/
theorem C5_counterexample :
    FLUX_THROW 7 none none 0 emptyTLS = .fatal [] ∧ ([] : List Nat).length = 0 := by
  constructor
  · decide
  · rfl

/-- C5 witness: the amended theorem at a concrete code, message and the
documented empty state. -/
theorem C5_witness :
    FLUX_THROW 9 (some (ascii "k")) none 0 emptyTLS =
      .fatal (flux_error_print (__flux_make_error 9 (some (ascii "k")) none 0)) ∧
    (∀ s2, FLUX_THROW 9 (some (ascii "k")) none 0 emptyTLS ≠ .jumped s2) ∧
    (∀ bs, (some (ascii "k") : Option (List Nat)) = some bs → bs ≠ [] →
      (0 : Nat) ∉ bs →
      flux_error_print (__flux_make_error 9 (some (ascii "k")) none 0) ≠ []) :=
  C5_empty_stack_fatal 9 (some (ascii "k")) none 0 emptyTLS (by decide)

/-! ### Claim C6 -/

/-- C6: the message stored by error construction equals the input exactly
when its length is at most 511 bytes and equals its first 511 bytes
otherwise; the 512-byte buffer always ends in a null byte, also when the
message pointer is NULL (the stored C string is then empty). -/
theorem C6_message_truncation (m : List Nat) (h0 : (0 : Nat) ∉ m) (c : Int)
    (fl : Option (List Nat)) (ln : Nat) :
    (m.length ≤ 511 → cstr (__flux_make_error c (some m) fl ln).msg = m) ∧
    (511 < m.length → cstr (__flux_make_error c (some m) fl ln).msg = m.take 511) ∧
    (__flux_make_error c (some m) fl ln).msg.length = 512 ∧
    (__flux_make_error c (some m) fl ln).msg.get? 511 = some 0 ∧
    cstr (__flux_make_error c none fl ln).msg = [] ∧
    (__flux_make_error c none fl ln).msg.length = 512 ∧
    (__flux_make_error c none fl ln).msg.get? 511 = some 0 := by
  have hmsg2 : (__flux_make_error c (some m) fl ln).msg =
      (m.take 511 ++ List.replicate (511 - m.length) 0) ++ [0] := by
    show strncpyPad m (FLUX_ERROR_MSG_MAX - 1) ++ [0] = _
    norm_num [strncpyPad, FLUX_ERROR_MSG_MAX]
  have hfront : (m.take 511 ++ List.replicate (511 - m.length) 0).length = 511 := by
    simp [List.length_take, List.length_replicate]
    omega
  refine ⟨?_, ?_, ?_, ?_, ?_, ?_, ?_⟩
  · intro hle
    rw [cstr_make_error_take c m fl ln h0, List.take_of_length_le hle]
  · intro _
    exact cstr_make_error_take c m fl ln h0
  · rw [hmsg2]
    simp [List.length_take, List.length_replicate]
    omega
  · rw [hmsg2, List.get?_append_right (by rw [hfront]), hfront]
    rfl
  · show cstr (List.replicate FLUX_ERROR_MSG_MAX 0) = []
    rw [show FLUX_ERROR_MSG_MAX = 511 + 1 from rfl, List.replicate_succ,
      cstr_zero_cons]
  · show (List.replicate FLUX_ERROR_MSG_MAX 0).length = 512
    rw [List.length_replicate]
    rfl
  · show (List.replicate FLUX_ERROR_MSG_MAX 0).get? 511 = some 0
    decide

/-- C6 witness: the theorem at a concrete short message. -/
theorem C6_witness :
    ((ascii "hi").length ≤ 511 →
      cstr (__flux_make_error 1 (some (ascii "hi")) none 3).msg = ascii "hi") ∧
    (511 < (ascii "hi").length →
      cstr (__flux_make_error 1 (some (ascii "hi")) none 3).msg
        = (ascii "hi").take 511) ∧
    (__flux_make_error 1 (some (ascii "hi")) none 3).msg.length = 512 ∧
    (__flux_make_error 1 (some (ascii "hi")) none 3).msg.get? 511 = some 0 ∧
    cstr (__flux_make_error 1 none none 3).msg = [] ∧
    (__flux_make_error 1 none none 3).msg.length = 512 ∧
    (__flux_make_error 1 none none 3).msg.get? 511 = some 0 :=
  C6_message_truncation (ascii "hi") (by decide) 1 none 3

/-! ### Claim C7 -/

/-- C7 (amended): rendering an error whose message is non-empty writes
exactly the flame-emoji-prefixed line
`🔥 [<basename>:<line>] ERR <code>: <message>` followed by a newline —
the spec's claimed format `[<basename>:<line>] ERR <code>: <message>`
preceded by the four UTF-8 bytes of the emoji and a space; rendering an
error with an empty message writes nothing. -/
theorem C7_render_format (e : flux_error) :
    (e.msg.headD 0 = 0 → flux_error_print e = []) ∧
    (e.msg.headD 0 ≠ 0 →
      flux_error_print e =
        fireBytes ++ ascii " " ++ spec_diagnostic_line e ++ ascii "\n") := by
  constructor
  · intro h
    unfold flux_error_print
    rw [if_pos h]
  · intro h
    unfold flux_error_print
    rw [if_neg h, renderLine, spec_diagnostic_line,
      show ascii " [" = ascii " " ++ ascii "[" from by decide]
    simp [List.append_assoc]

/-- C7 counterexample: at a concrete error the rendered bytes are not the
claimed bare format `[<basename>:<line>] ERR <code>: <message>` (with or
without a trailing newline): the output starts with the flame emoji. -/
theorem C7_counterexample :
    flux_error_print
        (__flux_make_error 4 (some (ascii "bad")) (some (ascii "/a/b/c.txt")) 12) ≠
      spec_diagnostic_line
        (__flux_make_error 4 (some (ascii "bad")) (some (ascii "/a/b/c.txt")) 12) ∧
    flux_error_print
        (__flux_make_error 4 (some (ascii "bad")) (some (ascii "/a/b/c.txt")) 12) ≠
      spec_diagnostic_line
        (__flux_make_error 4 (some (ascii "bad")) (some (ascii "/a/b/c.txt")) 12)
        ++ ascii "\n" := by
  constructor
  · decide
  · decide

/-- C7 witness: the amended theorem at a concrete error with a non-empty
message. -/
theorem C7_witness :
    flux_error_print (__flux_make_error 3 (some (ascii "oops")) (some (ascii "m.c")) 7) =
      fireBytes ++ ascii " " ++
        spec_diagnostic_line
          (__flux_make_error 3 (some (ascii "oops")) (some (ascii "m.c")) 7) ++
        ascii "\n" :=
  (C7_render_format _).2 (by decide)

/-! ### Claim C8 -/

/-- C8: a scope whose body only registers guards and completes without a
signalled failure performs no cleanup call at all during exit — the
record is popped (top back to its pre-entry value) with its active flag
cleared, and every registered guard is left uninvoked. -/
theorem C8_normal_exit_no_guards (ps : List (Nat × Nat)) (s : flux_tls)
    (h1 : s.stack.length = 64) (h2 : -1 ≤ s.top) (h3 : s.top < 63)
    (h4 : s.pool.guards.length = 2048) (h8 : ps.length ≤ 2048) :
    ∃ s2, exec (.tryB (defersOf ps)) s = (.normal s2, []) ∧
      s2.top = s.top ∧
      ∃ sc, s2.stack.get? (s.top + 1).toNat = some sc ∧ sc.active = false := by
  have htry := fluxTry_entered_of (s := s) (by omega) (by omega)
  set s1 : flux_tls := { s with
    top := s.top + 1
    stack := listModify (fun sc => { sc with guards := none, active := true })
      (s.top + 1).toNat s.stack
    pool := __flux_reset_pool s.pool } with hs1
  obtain ⟨sc0, hsc0⟩ : ∃ sc0, s.stack.get? (s.top + 1).toNat = some sc0 := by
    cases hg : s.stack.get? (s.top + 1).toNat with
    | none =>
      have := List.get?_eq_none.mp hg
      omega
    | some sc0 => exact ⟨sc0, rfl⟩
  have hs1get : s1.stack.get? (s.top + 1).toNat =
      some { sc0 with guards := none, active := true } := by
    show (listModify _ (s.top + 1).toNat s.stack).get? (s.top + 1).toNat = _
    rw [get?_listModify_eq, hsc0]
    rfl
  obtain ⟨s2, hreg, htop2, hlen2, hplen2, hidx2, hrec2, hn2, hl2, hh2, hst2⟩ :=
    registerAll_spec ps s1 0 { sc0 with guards := none, active := true }
      (by show (listModify _ (s.top + 1).toNat s.stack).length = 64
          rw [length_listModify, h1])
      (by show (0 : Int) ≤ s.top + 1; omega)
      (by show s.top + 1 < (64 : Int); omega)
      h4 rfl hs1get (by omega)
  have hidxe : s1.top.toNat = (s.top + 1).toNat := rfl
  rw [hidxe] at hrec2
  refine ⟨fluxCatchSuccess s1.top.toNat s2, ?_, ?_, ?_⟩
  · simp only [exec, htry, exec_defersOf ps s1 s2 hreg]
  · rw [fluxCatchSuccess_top, htop2]
    show s.top + 1 - 1 = s.top
    omega
  · refine ⟨{ sc0 with guards := chainHd 0 none ps, active := false }, ?_, rfl⟩
    show (listModify (fun sc => { sc with active := false })
      s1.top.toNat s2.stack).get? (s.top + 1).toNat = _
    rw [hidxe, get?_listModify_eq, hrec2]
    rfl

/-- C8 witness: the theorem at a concrete one-guard scope over the
zero-initialised thread state. -/
theorem C8_witness :
    ∃ s2, exec (.tryB (defersOf [(1, 2)])) initTLS = (.normal s2, []) ∧
      s2.top = initTLS.top ∧
      ∃ sc, s2.stack.get? (initTLS.top + 1).toNat = some sc ∧ sc.active = false :=
  C8_normal_exit_no_guards [(1, 2)] initTLS
    (by rw [show initTLS.stack = List.replicate 64 ⟨⟨0, List.replicate FLUX_ERROR_MSG_MAX 0, List.replicate 64 0, 0⟩, none, false⟩ from rfl, List.length_replicate])
    (by decide) (by decide)
    (by rw [show initTLS.pool.guards = List.replicate 2048 ⟨0, 0, none⟩ from rfl, List.length_replicate])
    (by decide)

/-! ### Claim C9 -/

/-- C9: guard registration performs no check that a protected scope is
active: when the stack is empty (`top = -1`, the documented empty
encoding) and the pool has a free slot, the unconditional `stack[top]`
access is out of the array bounds (undefined behaviour); with any active
scope (`0 <= top < 64`) the operation is well-defined. -/
theorem C9_defer_no_scope_check (dt p : Nat) (fl : Option (List Nat)) (ln : Nat)
    (s : flux_tls) :
    (s.top = -1 → s.pool.idx < 2048 → FLUX_DEFER dt p fl ln s = .ub) ∧
    (0 ≤ s.top → s.top < 64 → s.stack.length = 64 →
      FLUX_DEFER dt p fl ln s ≠ .ub) := by
  constructor
  · intro htop hidx
    have hA : ¬ (s.pool.idx ≥ FLUX_POOL_SIZE) := by
      simp only [FLUX_POOL_SIZE]
      omega
    unfold FLUX_DEFER __flux_acquire_guard
    rw [if_neg hA]
    simp only
    rw [if_neg (by rw [maxDepth_cast, htop]; intro hc; omega)]
  · intro h0 h1 hlen hub
    by_cases hidx : s.pool.idx < 2048
    · obtain ⟨sc, hsc⟩ : ∃ sc, s.stack.get? s.top.toNat = some sc := by
        cases hg : s.stack.get? s.top.toNat with
        | none =>
          have := List.get?_eq_none.mp hg
          omega
        | some sc => exact ⟨sc, rfl⟩
      rw [fluxDefer_ok_of dt p fl ln hidx h0 h1 hsc] at hub
      exact DeferR.noConfusion hub
    · rw [fluxDefer_exhausted dt p fl ln (by omega) h0 h1] at hub
      exact DeferR.noConfusion hub

/-- C9 witness: registering with the empty stack and a free pool slot is
the out-of-bounds case, and registering inside the first entered scope is
not. -/
theorem C9_witness :
    FLUX_DEFER 1 2 none 0 emptyTLS = .ub ∧
    FLUX_DEFER 1 2 none 0 enteredTLS ≠ .ub :=
  ⟨(C9_defer_no_scope_check 1 2 none 0 emptyTLS).1 (by decide) (by decide),
   (C9_defer_no_scope_check 1 2 none 0 enteredTLS).2 (by decide) (by decide)
     (by rw [show enteredTLS.stack = listModify (fun sc => { sc with guards := none, active := true }) 1 (List.replicate 64 ⟨⟨0, List.replicate FLUX_ERROR_MSG_MAX 0, List.replicate 64 0, 0⟩, none, false⟩) from rfl, length_listModify, List.length_replicate])⟩

/-! ### Claim C10 -/

/-- C10: every complete scope block (entry, body, then normal exit or
caught failure) restores the stack top to its pre-entry value; each
primitive keeps `-1 <= top <= 63` (entry pushes into `0..63`,
registration and failure signalling never move `top`, and the two pop
arms decrement a pushed `top >= 0` back to at least -1); and a caught
failure pops to exactly the depth a successful exit of the same record
pops to. -/
theorem C10_stack_invariants :
    (∀ b s s2 ev, exec (.tryB b) s = (.normal s2, ev) → s2.top = s.top) ∧
    (∀ s s2, FLUX_TRY s = .entered s2 →
      s2.top = s.top + 1 ∧ 0 ≤ s2.top ∧ s2.top ≤ 63) ∧
    (∀ dt p fl ln s s2, FLUX_DEFER dt p fl ln s = .ok s2 →
      s2.top = s.top ∧ 0 ≤ s2.top ∧ s2.top ≤ 63) ∧
    (∀ dt p fl ln s s2, FLUX_DEFER dt p fl ln s = .thrown s2 →
      s2.top = s.top ∧ 0 ≤ s2.top ∧ s2.top ≤ 63) ∧
    (∀ c m fl ln s s2, FLUX_THROW c m fl ln s = .jumped s2 →
      s2.top = s.top ∧ 0 ≤ s2.top ∧ s2.top ≤ 63) ∧
    (∀ l s, 0 ≤ s.top → s.top ≤ 63 →
      -1 ≤ (fluxCatchSuccess l s).top ∧ (fluxCatchSuccess l s).top ≤ 63) ∧
    (∀ l s, 0 ≤ s.top → s.top ≤ 63 →
      -1 ≤ (fluxCatchFail l s).1.top ∧ (fluxCatchFail l s).1.top ≤ 63) ∧
    (∀ l s, (fluxCatchFail l s).1.top = (fluxCatchSuccess l s).top) := by
  refine ⟨?_, ?_, ?_, ?_, ?_, ?_, ?_, ?_⟩
  · intro b s s2 ev h
    exact (exec_top (.tryB b) s).1 s2 ev h
  · intro s s2 h
    have := fluxTry_entered_inv h
    exact ⟨this.1, this.2.1, this.2.2.1⟩
  · intro dt p fl ln s s2 h
    have := fluxDefer_ok_inv h
    refine ⟨this.1, ?_, ?_⟩ <;> omega
  · intro dt p fl ln s s2 h
    have := fluxDefer_thrown_inv h
    refine ⟨this.1, ?_, ?_⟩ <;> omega
  · intro c m fl ln s s2 h
    have := fluxThrow_jumped_inv h
    refine ⟨this.1, ?_, ?_⟩ <;> omega
  · intro l s h0 h1
    rw [fluxCatchSuccess_top]
    omega
  · intro l s h0 h1
    rw [fluxCatchFail_top]
    omega
  · intro l s
    rw [fluxCatchFail_top, fluxCatchSuccess_top]

/-- The final state of one concrete complete scope block run from the
zero-initialised thread state. -/
def blockRunTLS : flux_tls :=
  match exec (.tryB (.deferB 1 1)) initTLS with
  | (.normal s2, _) => s2
  | _ => initTLS

/-- C10 witness: the invariants applied at the first entered scope and at
one concrete complete block. -/
theorem C10_witness :
    blockRunTLS.top = initTLS.top ∧
    (fluxCatchFail 1 enteredTLS).1.top = (fluxCatchSuccess 1 enteredTLS).top ∧
    (-1 ≤ (fluxCatchSuccess 1 enteredTLS).top ∧
      (fluxCatchSuccess 1 enteredTLS).top ≤ 63) :=
  ⟨C10_stack_invariants.1 (.deferB 1 1) initTLS blockRunTLS [] (by rfl),
   C10_stack_invariants.2.2.2.2.2.2.2 1 enteredTLS,
   C10_stack_invariants.2.2.2.2.2.1 1 enteredTLS (by decide) (by decide)⟩
